import Mathlib

/-
Verification of the inPZU-vs-BTC monitoring pipeline
(source: monitor_inpzu_vs_btc.py).

Shallow embedding conventions:
- Python strings are modelled as `List Char` (table cells enter as `String`
  and are converted with `String.toList`).
- Python `str.replace` is `pyReplace` (left-to-right, non-overlapping,
  all occurrences), `str.strip` is `pyStrip`, `str.split(sep)` is
  `List.splitOn`, `str.isdigit` is `pyIsdigit` (ASCII digits).
- Python `float(...)` on the cleaned decimal strings arising in this
  program is `pyFloat : List Char → Option Rat` (optional sign, digits
  with at most one decimal point, no exponent; `none` models a raised
  `ValueError`).
- `pd.to_datetime(s, dayfirst=True).date()` on the table's date strings is
  `parseDate`, accepting the site's `DD.MM.YYYY` format and mapping it to
  a day ordinal (`daysFromCivil`, the standard civil-calendar day count),
  so date comparison and `timedelta` arithmetic become `Nat` comparison
  and subtraction; `none` models a raised parse exception.
- Network effects are inputs: each HTTP attempt's outcome is an
  `Except String _` value supplied to the run, and the history file's
  prior contents enter as `Option (List HistoryRow)` (`none` = file
  absent).  A raised Python exception that aborts the run is the
  `RunOutcome.fatal` result.
-/

/-! ## Python string primitives -/

/-- Value of a list of ASCII digit characters, most significant first. -/
def digitsToNat (cs : List Char) : Nat :=
  cs.foldl (fun a c => 10 * a + (c.toNat - 48)) 0

/-- Python `str.isdigit`: non-empty and all digits. -/
def pyIsdigit (s : List Char) : Bool :=
  !s.isEmpty && s.all Char.isDigit

/-- Worker for `pyReplace`: scans the text one character at a time; while
`skip > 0` it is still consuming the tail of a matched pattern occurrence
(already replaced), otherwise it tests for a pattern occurrence at the
current position. -/
def pyReplaceGo (pat repl : List Char) (skip : Nat) : List Char → List Char
  | [] => []
  | c :: rest =>
    match skip with
    | k + 1 => pyReplaceGo pat repl k rest
    | 0 =>
      if pat.isPrefixOf (c :: rest) then
        repl ++ pyReplaceGo pat repl (pat.length - 1) rest
      else
        c :: pyReplaceGo pat repl 0 rest

/-- Python `str.replace(pat, repl)`: replace all non-overlapping occurrences,
left to right.  (All patterns used by the program are non-empty.) -/
def pyReplace (pat repl : List Char) (s : List Char) : List Char :=
  if pat.isEmpty then s else pyReplaceGo pat repl 0 s

/-- `pyReplace` with `String` pattern/replacement literals. -/
def pyReplaceS (pat repl : String) (s : List Char) : List Char :=
  pyReplace pat.toList repl.toList s

/-- Python `str.strip()`: drop whitespace from both ends. -/
def pyStrip (s : List Char) : List Char :=
  ((s.dropWhile Char.isWhitespace).reverse.dropWhile Char.isWhitespace).reverse

/-- Python `float(...)` restricted to the plain decimal strings this program
feeds it: optional sign, then digits with at most one `.` and at least one
digit; the value `sign * (whole + frac / 10 ^ fracLen)` is returned as a
single normalized fraction.  `none` models a raised `ValueError` (in
particular on strings with two or more dots, such as a `DD.MM.YYYY`
date). -/
def pyFloat (s : List Char) : Option Rat :=
  let signed : Bool × List Char :=
    match s with
    | '-' :: r => (true, r)
    | '+' :: r => (false, r)
    | _ => (false, s)
  let sign : Int := if signed.1 then -1 else 1
  let t := signed.2
  match t.splitOn '.' with
  | [w] =>
    if pyIsdigit w then
      some (mkRat (sign * (digitsToNat w : Int)) 1)
    else none
  | [w, f] =>
    if (!w.isEmpty || !f.isEmpty) && w.all Char.isDigit && f.all Char.isDigit then
      some (mkRat (sign * ((digitsToNat w * 10 ^ f.length + digitsToNat f : Nat) : Int))
        (10 ^ f.length))
    else none
  | _ => none

/-! ## Dates

`daysFromCivil` is the standard civil-from-days algorithm mapping a
Gregorian date to a day ordinal; it is strictly monotone in chronological
order, so `≤` on ordinals is chronological `≤` and subtracting 10 models
`timedelta(days=10)`. -/

/-- Day ordinal of the Gregorian date `y-m-d` (valid for `y ≥ 1`). -/
def daysFromCivil (y m d : Nat) : Nat :=
  let y' := if m ≤ 2 then y - 1 else y
  let era := y' / 400
  let yoe := y' % 400
  let mp := (m + 9) % 12
  let doy := (153 * mp + 2) / 5 + d - 1
  let doe := yoe * 365 + yoe / 4 - yoe / 100 + doy
  era * 146097 + doe

/-- Model of `pd.to_datetime(s, dayfirst=True).date()` on this table's
date strings: parse `DD.MM.YYYY` to a day ordinal, `none` on failure. -/
def parseDate (s : List Char) : Option Nat :=
  match s.splitOn '.' with
  | [ds, ms, ys] =>
    if pyIsdigit ds && pyIsdigit ms && pyIsdigit ys then
      let d := digitsToNat ds
      let m := digitsToNat ms
      let y := digitsToNat ys
      if 1 ≤ d && d ≤ 31 && 1 ≤ m && m ≤ 12 && 1 ≤ y then
        some (daysFromCivil y m d)
      else none
    else none
  | _ => none

/-! ## NAV adapter (`fetch_inpzu_nav`) -/

/-- Date-shape test on a raw cell: `"." in c and any(ch.isdigit() for ch in c)
and len(c) >= 8`. -/
def isDateShaped (c : List Char) : Bool :=
  c.contains '.' && c.any Char.isDigit && decide (8 ≤ c.length)

/-- Cell cleaning:
`c.replace(" ","").replace("PLN","").replace("zł","").replace("%","").replace(",",".")`. -/
def cleanCell (c : List Char) : List Char :=
  pyReplaceS "," "."
    (pyReplaceS "%" ""
      (pyReplaceS "zł" ""
        (pyReplaceS "PLN" ""
          (pyReplaceS " " "" c))))

/-- Numeric-shape test on a cleaned cell: `cleaned.replace(".","").isdigit()`. -/
def isNumShaped (cleaned : List Char) : Bool :=
  pyIsdigit (pyReplaceS "." "" cleaned)

/-- The per-row cell scan: one pass over the cells, keeping the last cell
matching the date shape as `date_str` and the cleaned form of the last cell
whose cleaned form matches the numeric shape as `val_str`. -/
def scanCells (cols : List (List Char)) : Option (List Char) × Option (List Char) :=
  cols.foldl
    (fun acc c =>
      let dstr := if isDateShaped c then some c else acc.1
      let cleaned := cleanCell c
      let vstr := if isNumShaped cleaned then some cleaned else acc.2
      (dstr, vstr))
    (none, none)

/-- Last element of `cols` satisfying `p`, if any (the fold the row scan
performs for each of its two tokens). -/
def lastMatching (p : List Char → Bool) (cols : List (List Char)) : Option (List Char) :=
  cols.foldl (fun acc c => if p c then some c else acc) none

/-- One table row of `fetch_inpzu_nav`: cells are the extracted texts
(`get_text(strip=True)`), each first normalised with `replace("\xa0", " ")`;
rows with fewer than two cells are skipped; a row contributes `(d, v)` only
if both tokens are found, both parse, and `start ≤ d ≤ end` where
`start = today - 10` days. -/
def processRow (today : Nat) (cells : List String) : Option (Nat × Rat) :=
  let cols := cells.map (fun td => pyReplaceS "\xA0" " " td.toList)
  if cols.length < 2 then none
  else
    match scanCells cols with
    | (some dateStr, some valStr) =>
      match parseDate dateStr, pyFloat valStr with
      | some d, some v =>
        if today - 10 ≤ d ∧ d ≤ today then some (d, v) else none
      | _, _ => none
    | _ => none

/-- All rows of all tables, in document order, filtered to the contributing
`(date, value)` pairs. -/
def collectRows (today : Nat) (table : List (List String)) : List (Nat × Rat) :=
  table.filterMap (processRow today)

/-- Worker for `dropDupDates`: keep a row only if its date was not seen in
an earlier kept-or-dropped row. -/
def dropDupDatesGo (seen : List Nat) : List (Nat × Rat) → List (Nat × Rat)
  | [] => []
  | r :: rest =>
    if r.1 ∈ seen then dropDupDatesGo seen rest
    else r :: dropDupDatesGo (r.1 :: seen) rest

/-- `DataFrame.drop_duplicates(subset=["date"])`: keep the first row for
each date, preserving order. -/
def dropDupDates (l : List (Nat × Rat)) : List (Nat × Rat) :=
  dropDupDatesGo [] l

/-- Insert a row into a list sorted ascending by date. -/
def insertByDate (r : Nat × Rat) : List (Nat × Rat) → List (Nat × Rat)
  | [] => [r]
  | s :: rest => if r.1 ≤ s.1 then r :: s :: rest else s :: insertByDate r rest

/-- `DataFrame.sort_values("date")`: sort ascending by date (after
deduplication the dates are distinct, so any sort yields this order). -/
def sortByDate (l : List (Nat × Rat)) : List (Nat × Rat) :=
  l.foldr insertByDate []

/-- `fetch_inpzu_nav`: scan every row of every table, keep in-window parsed
rows, deduplicate by date, sort ascending by date and return the last row
as `(value, date)`; `(None, None)` — here `none` — if no row qualifies. -/
def fetch_inpzu_nav (today : Nat) (table : List (List String)) : Option (Rat × Nat) :=
  let rows := collectRows today table
  if rows.isEmpty then none
  else
    let df := sortByDate (dropDupDates rows)
    df.getLast?.map (fun r => (r.2, r.1))

/-! ## Auxiliary index adapter (`fetch_bloomberg_index_ft`), change field

The "Today's Change" text is split on `/` and each part stripped; only if
exactly two parts result are they cleaned and converted with `float`.  The
two conversions sit in one `try` block whose `except` clause resets both
`change_abs` and `change_pct` to `None`, so a conversion failure of either
part yields `(None, None)`. -/

/-- Parsing of the FT "Today's Change" field text into
`(change_abs, change_pct)`; `none` components model Python `None`. -/
def parseChangeField (txt : String) : Option Rat × Option Rat :=
  let parts := (txt.toList.splitOn '/').map pyStrip
  if parts.length = 2 then
    let abs_str := pyReplaceS " " "" (pyReplaceS "," "" (parts.getD 0 []))
    let pct_str :=
      pyReplaceS " " "" (pyReplaceS "," "" (pyReplaceS "%" "" (parts.getD 1 [])))
    match pyFloat abs_str, pyFloat pct_str with
    | some a, some p => (some a, some p)
    | _, _ => (none, none)
  else (none, none)

/-! ## HTTP fetcher (`http_get_with_retry`)

The network is an input: `first` is the outcome of attempt 1 and `rest`
the outcomes of the later attempts (`max_retries` attempts in total, 3 by
default).  A successful attempt returns immediately; after the last failed
attempt the last exception is re-raised. -/

/-- `http_get_with_retry`: first success among the attempts, else the last
failure. -/
def http_get_with_retry {α : Type} (first : Except String α)
    (rest : List (Except String α)) : Except String α :=
  match first, rest with
  | Except.ok r, _ => Except.ok r
  | Except.error e, [] => Except.error e
  | Except.error _, a :: more => http_get_with_retry a more

/-! ## Reconciler, history store and notifier (`check_and_notify`,
`send_ntfy_alert`) -/

/-- Alert threshold: `ROZNICA_THRESHOLD = 3000.0`. -/
def ROZNICA_THRESHOLD : Rat := 3000

/-- The best-effort FT quote `(price, change_abs, change_pct)`. -/
structure FtData where
  price : Option Rat
  change_abs : Option Rat
  change_pct : Option Rat
deriving DecidableEq

/-- One row of the `intraday_diff_inpzu_vs_btc.csv` history log. -/
structure HistoryRow where
  timestamp : String
  nav_date : Nat
  nav_pln : Rat
  btc_now : Rat
  roznica : Rat
  ft_price : Option Rat
  ft_change_abs : Option Rat
  ft_change_pct : Option Rat
deriving DecidableEq

/-- Result of `send_ntfy_alert`; the function always returns normally. -/
inductive NotifyOutcome where
  | skippedEmptyTopic
  | sent
  | deliveryFailed
deriving DecidableEq

/-- How a run of `check_and_notify` ends: early return because the NAV was
unavailable, an uncaught exception from the mandatory spot fetch, or normal
completion (with the alert decision and, when the alert fired, the
notifier's outcome). -/
inductive RunOutcome where
  | navUnavailable
  | fatal (e : String)
  | completed (alerted : Bool) (notify : Option NotifyOutcome)
deriving DecidableEq

/-- Observable result of one run: how it ended, and the state of the
history file afterwards (`none` = file still absent). -/
structure RunResult where
  outcome : RunOutcome
  history : Option (List HistoryRow)
deriving DecidableEq

/-- `send_ntfy_alert`: skip when the trimmed topic is empty, otherwise the
POST's outcome decides between sent and a caught, logged failure.  Totality
of this function is the model of "never raises". -/
def send_ntfy_alert (topic : String) (postResult : Except String Unit) :
    NotifyOutcome :=
  if topic.trim = "" then NotifyOutcome.skippedEmptyTopic
  else
    match postResult with
    | Except.ok _ => NotifyOutcome.sent
    | Except.error _ => NotifyOutcome.deliveryFailed

/-- `check_and_notify`: the run pipeline.  Inputs are the observable
outcomes of the effectful steps: the NAV fetch result, the spot-fetch
attempt outcomes, the FT quote, the pre-existing history file contents,
the configured topic and the notification POST outcome. -/
def check_and_notify (now : String) (navResult : Option (Rat × Nat))
    (spotFirst : Except String Rat) (spotRest : List (Except String Rat))
    (ft : FtData) (oldHistory : Option (List HistoryRow))
    (topic : String) (postResult : Except String Unit) : RunResult :=
  match navResult with
  | none => { outcome := RunOutcome.navUnavailable, history := oldHistory }
  | some (nav_pln, nav_date) =>
    match http_get_with_retry spotFirst spotRest with
    | Except.error e => { outcome := RunOutcome.fatal e, history := oldHistory }
    | Except.ok btc_now =>
      let roznica := nav_pln - btc_now
      let row : HistoryRow :=
        { timestamp := now, nav_date := nav_date, nav_pln := nav_pln,
          btc_now := btc_now, roznica := roznica,
          ft_price := ft.price, ft_change_abs := ft.change_abs,
          ft_change_pct := ft.change_pct }
      let newHistory :=
        match oldHistory with
        | some old => old ++ [row]
        | none => [row]
      if ROZNICA_THRESHOLD ≤ |roznica| then
        { outcome :=
            RunOutcome.completed true (some (send_ntfy_alert topic postResult)),
          history := some newHistory }
      else
        { outcome := RunOutcome.completed false none,
          history := some newHistory }

/-- Whether the run attempted an alert notification (i.e. called
`send_ntfy_alert`). -/
def notifyAttempted (r : RunResult) : Bool :=
  match r.outcome with
  | RunOutcome.completed _ (some _) => true
  | _ => false

/-- A sample history row, used to instantiate concrete runs. -/
def sampleRow (n : Nat) : HistoryRow :=
  { timestamp := "", nav_date := n, nav_pln := n, btc_now := 0, roznica := n,
    ft_price := none, ft_change_abs := none, ft_change_pct := none }

example : pyFloat "93500.00".toList = some 93500 := by decide
example : pyFloat "-3078.00".toList = some (-3078) := by decide
example : pyFloat "-2.63".toList = some (mkRat (-263) 100) := by decide
example : pyFloat "18.03.2024".toList = none := by decide
example : isDateShaped "18.03.2024".toList = true := by decide
example : isNumShaped (cleanCell "18.03.2024".toList) = true := by decide
example : cleanCell "93 500,00".toList = "93500.00".toList := by decide
example : parseDate "18.03.2024".toList = some (daysFromCivil 2024 3 18) := by decide
example : daysFromCivil 2024 3 20 - 10 = daysFromCivil 2024 3 10 := by decide
example :
    processRow (daysFromCivil 2024 3 20) ["18.03.2024", "93 500,00"] =
      some (daysFromCivil 2024 3 18, 93500) := by decide
example :
    processRow (daysFromCivil 2024 3 20) ["01.03.2024", "93 500,00"] = none := by
  decide
example :
    fetch_inpzu_nav (daysFromCivil 2024 3 20) [["18.03.2024", "93 500,00"]] =
      some (93500, daysFromCivil 2024 3 18) := by decide
example :
    parseChangeField "-3,078.00 / -2.63%" =
      (some (mkRat (-3078) 1), some (mkRat (-263) 100)) := by decide
example : parseChangeField "-2.63%" = (none, none) := by decide
example : parseChangeField "-3,078.00 / abc" = (none, none) := by decide
example :
    http_get_with_retry (Except.error "e1")
      [Except.error "e2", (Except.error "e3" : Except String Rat)] =
      Except.error "e3" := rfl

/-! ## Helper lemmas -/

/-- When every attempt fails, the retry loop surfaces the last failure. -/
theorem retry_all_errors {α : Type} (e0 : String) (es : List String) :
    http_get_with_retry (Except.error e0 : Except String α) (es.map Except.error) =
      Except.error (es.getLast?.getD e0) := by
  induction es generalizing e0 with
  | nil => rfl
  | cons e1 t ih =>
    have h2 : (e1 :: t).getLast?.getD e0 = t.getLast?.getD e1 := by
      cases t with
      | nil => rfl
      | cons a b =>
        obtain ⟨m, hm⟩ := Option.isSome_iff_exists.mp
          (List.getLast?_isSome.mpr (List.cons_ne_nil a b))
        rw [List.getLast?_cons_cons, hm]
        rfl
    rw [List.map_cons]
    show http_get_with_retry (Except.error e1) (t.map Except.error) =
      Except.error ((e1 :: t).getLast?.getD e0)
    rw [ih e1, h2]

/-! ## Claim theorems -/

/-- Claim C1: whenever a run obtains both a NAV value and a spot price, the
recorded history row's difference is exactly `nav_value - spot_value`
(NAV minus spot, no rounding). -/
theorem spec_C1_difference (now : String) (nav_pln : Rat) (nav_date : Nat)
    (spotFirst : Except String Rat) (spotRest : List (Except String Rat))
    (ft : FtData) (oldHistory : Option (List HistoryRow)) (topic : String)
    (postResult : Except String Unit) (btc_now : Rat)
    (hspot : http_get_with_retry spotFirst spotRest = Except.ok btc_now) :
    ∃ row : HistoryRow,
      (check_and_notify now (some (nav_pln, nav_date)) spotFirst spotRest ft
          oldHistory topic postResult).history =
        some (oldHistory.getD [] ++ [row]) ∧
      row.roznica = nav_pln - btc_now ∧ row.nav_pln = nav_pln ∧
      row.btc_now = btc_now := by
  refine ⟨{ timestamp := now, nav_date := nav_date, nav_pln := nav_pln,
            btc_now := btc_now, roznica := nav_pln - btc_now,
            ft_price := ft.price, ft_change_abs := ft.change_abs,
            ft_change_pct := ft.change_pct }, ?_, rfl, rfl, rfl⟩
  simp only [check_and_notify, hspot]
  cases oldHistory with
  | none =>
    by_cases h : ROZNICA_THRESHOLD ≤ |nav_pln - btc_now| <;> simp [h]
  | some old =>
    by_cases h : ROZNICA_THRESHOLD ≤ |nav_pln - btc_now| <;> simp [h]

/-- Witness for C1 at a concrete run. -/
theorem spec_C1_witness :
    ∃ row : HistoryRow,
      (check_and_notify "t" (some (93500, 0)) (Except.ok 90000) []
          ⟨none, none, none⟩ none "x" (Except.ok ())).history =
        some ((none : Option (List HistoryRow)).getD [] ++ [row]) ∧
      row.roznica = 93500 - 90000 ∧ row.nav_pln = 93500 ∧ row.btc_now = 90000 :=
  spec_C1_difference "t" 93500 0 (Except.ok 90000) [] ⟨none, none, none⟩ none "x"
    (Except.ok ()) 90000 rfl

/-- Claim C2: the alert notification is attempted iff
`abs(difference) >= threshold`, with the inclusive boundary firing, and the
threshold is the configured default 3000.0. -/
theorem spec_C2_alert_iff (now : String) (nav_pln : Rat) (nav_date : Nat)
    (spotFirst : Except String Rat) (spotRest : List (Except String Rat))
    (ft : FtData) (oldHistory : Option (List HistoryRow)) (topic : String)
    (postResult : Except String Unit) (btc_now : Rat)
    (hspot : http_get_with_retry spotFirst spotRest = Except.ok btc_now) :
    ROZNICA_THRESHOLD = 3000 ∧
    (notifyAttempted (check_and_notify now (some (nav_pln, nav_date)) spotFirst
        spotRest ft oldHistory topic postResult) = true ↔
      |nav_pln - btc_now| ≥ ROZNICA_THRESHOLD) ∧
    (|nav_pln - btc_now| = ROZNICA_THRESHOLD →
      notifyAttempted (check_and_notify now (some (nav_pln, nav_date)) spotFirst
        spotRest ft oldHistory topic postResult) = true) := by
  have hiff : notifyAttempted (check_and_notify now (some (nav_pln, nav_date))
      spotFirst spotRest ft oldHistory topic postResult) = true ↔
      |nav_pln - btc_now| ≥ ROZNICA_THRESHOLD := by
    simp only [check_and_notify, hspot]
    by_cases h : ROZNICA_THRESHOLD ≤ |nav_pln - btc_now| <;>
      simp [h, notifyAttempted, ge_iff_le]
  exact ⟨rfl, hiff, fun he => hiff.mpr (le_of_eq he.symm)⟩

/-- Witness for C2 at the exact boundary: difference 3000 fires the alert. -/
theorem spec_C2_witness :
    notifyAttempted (check_and_notify "t" (some (93000, 0)) (Except.ok 90000) []
      ⟨none, none, none⟩ none "x" (Except.ok ())) = true :=
  (spec_C2_alert_iff "t" 93000 0 (Except.ok 90000) [] ⟨none, none, none⟩ none "x"
      (Except.ok ()) 90000 rfl).2.2 (by
    show |(93000 : Rat) - 90000| = ROZNICA_THRESHOLD
    rw [ROZNICA_THRESHOLD]
    norm_num)

/-- Claim C3: when the mandatory spot-price fetch fails on every attempt,
the retrying fetcher surfaces the last failure, the run ends with that
fatal failure, the history file is untouched, and the notifier is never
invoked. -/
theorem spec_C3_retry_exhaustion (now : String) (nav_pln : Rat) (nav_date : Nat)
    (e0 : String) (es : List String) (ft : FtData)
    (oldHistory : Option (List HistoryRow)) (topic : String)
    (postResult : Except String Unit) :
    http_get_with_retry (Except.error e0 : Except String Rat)
        (es.map Except.error) = Except.error (es.getLast?.getD e0) ∧
    check_and_notify now (some (nav_pln, nav_date)) (Except.error e0)
        (es.map Except.error) ft oldHistory topic postResult =
      { outcome := RunOutcome.fatal (es.getLast?.getD e0),
        history := oldHistory } ∧
    notifyAttempted (check_and_notify now (some (nav_pln, nav_date))
        (Except.error e0) (es.map Except.error) ft oldHistory topic
        postResult) = false := by
  have hretry := retry_all_errors (α := Rat) e0 es
  refine ⟨hretry, ?_, ?_⟩
  · simp only [check_and_notify, hretry]
  · simp only [notifyAttempted, check_and_notify, hretry]

/-- Claim C4: appending the new comparison record to an existing history of
n rows yields n+1 rows, the first n unchanged and in order, the new record
last. -/
theorem spec_C4_history_append (now : String) (nav_pln : Rat) (nav_date : Nat)
    (spotFirst : Except String Rat) (spotRest : List (Except String Rat))
    (ft : FtData) (old : List HistoryRow) (topic : String)
    (postResult : Except String Unit) (btc_now : Rat)
    (hspot : http_get_with_retry spotFirst spotRest = Except.ok btc_now) :
    ∃ row : HistoryRow,
      (check_and_notify now (some (nav_pln, nav_date)) spotFirst spotRest ft
          (some old) topic postResult).history = some (old ++ [row]) ∧
      (old ++ [row]).length = old.length + 1 ∧
      (old ++ [row]).take old.length = old ∧
      (old ++ [row]).getLast? = some row := by
  refine ⟨{ timestamp := now, nav_date := nav_date, nav_pln := nav_pln,
            btc_now := btc_now, roznica := nav_pln - btc_now,
            ft_price := ft.price, ft_change_abs := ft.change_abs,
            ft_change_pct := ft.change_pct }, ?_, by simp,
          List.take_left old _, List.getLast?_concat old⟩
  simp only [check_and_notify, hspot]
  by_cases h : ROZNICA_THRESHOLD ≤ |nav_pln - btc_now| <;> simp [h]

/-- Witness for C4: appending to a concrete 2-row log yields a 3-row log
with the original rows unchanged. -/
theorem spec_C4_witness :
    ∃ row : HistoryRow,
      (check_and_notify "t" (some (93500, 0)) (Except.ok 90000) []
          ⟨none, none, none⟩ (some [sampleRow 1, sampleRow 2]) "x"
          (Except.ok ())).history = some ([sampleRow 1, sampleRow 2] ++ [row]) ∧
      ([sampleRow 1, sampleRow 2] ++ [row]).length =
        [sampleRow 1, sampleRow 2].length + 1 ∧
      ([sampleRow 1, sampleRow 2] ++ [row]).take
        [sampleRow 1, sampleRow 2].length = [sampleRow 1, sampleRow 2] ∧
      ([sampleRow 1, sampleRow 2] ++ [row]).getLast? = some row :=
  spec_C4_history_append "t" 93500 0 (Except.ok 90000) [] ⟨none, none, none⟩
    [sampleRow 1, sampleRow 2] "x" (Except.ok ()) 90000 rfl

/-- Claim C9: on an alerting record the notifier is total — empty trimmed
topic skips the send, a failing POST is caught and yields a logged-failure
outcome — and in every case the run completes normally with the history
record (appended before the notification attempt) in place. -/
theorem spec_C9_notify_best_effort (now : String) (nav_pln : Rat)
    (nav_date : Nat) (spotFirst : Except String Rat)
    (spotRest : List (Except String Rat)) (ft : FtData)
    (oldHistory : Option (List HistoryRow)) (topic : String)
    (postResult : Except String Unit) (btc_now : Rat)
    (hspot : http_get_with_retry spotFirst spotRest = Except.ok btc_now)
    (halert : |nav_pln - btc_now| ≥ ROZNICA_THRESHOLD) :
    ∃ row : HistoryRow,
      check_and_notify now (some (nav_pln, nav_date)) spotFirst spotRest ft
          oldHistory topic postResult =
        { outcome := RunOutcome.completed true
            (some (send_ntfy_alert topic postResult)),
          history := some (oldHistory.getD [] ++ [row]) } ∧
      (topic.trim = "" →
        send_ntfy_alert topic postResult = NotifyOutcome.skippedEmptyTopic) ∧
      (topic.trim ≠ "" → ∀ err, postResult = Except.error err →
        send_ntfy_alert topic postResult = NotifyOutcome.deliveryFailed) := by
  refine ⟨{ timestamp := now, nav_date := nav_date, nav_pln := nav_pln,
            btc_now := btc_now, roznica := nav_pln - btc_now,
            ft_price := ft.price, ft_change_abs := ft.change_abs,
            ft_change_pct := ft.change_pct }, ?_, ?_, ?_⟩
  · simp only [check_and_notify, hspot]
    rw [if_pos halert]
    cases oldHistory <;> simp
  · intro h
    simp [send_ntfy_alert, h]
  · intro h err he
    simp [send_ntfy_alert, h, he]

/-- Witness for C9: an alerting run with an empty topic skips sending and
still records history. -/
theorem spec_C9_witness :
    ∃ row : HistoryRow,
      check_and_notify "t" (some (93500, 0)) (Except.ok 90000) []
          ⟨none, none, none⟩ none "" (Except.ok ()) =
        { outcome := RunOutcome.completed true
            (some (send_ntfy_alert "" (Except.ok ()))),
          history := some ((none : Option (List HistoryRow)).getD [] ++ [row]) } ∧
      ("".trim = "" →
        send_ntfy_alert "" (Except.ok ()) = NotifyOutcome.skippedEmptyTopic) ∧
      ("".trim ≠ "" → ∀ err, (Except.ok () : Except String Unit) = Except.error err →
        send_ntfy_alert "" (Except.ok ()) = NotifyOutcome.deliveryFailed) :=
  spec_C9_notify_best_effort "t" 93500 0 (Except.ok 90000) [] ⟨none, none, none⟩
    none "" (Except.ok ()) 90000 rfl (by
      show |(93500 : Rat) - 90000| ≥ ROZNICA_THRESHOLD
      rw [ROZNICA_THRESHOLD]
      norm_num)

/-- Deduplication only keeps rows of the input list. -/
theorem mem_of_mem_dropDupDatesGo :
    ∀ (l : List (Nat × Rat)) (seen : List Nat) (x : Nat × Rat),
      x ∈ dropDupDatesGo seen l → x ∈ l := by
  intro l
  induction l with
  | nil => intro seen x hx; cases hx
  | cons r rest ih =>
    intro seen x hx
    simp only [dropDupDatesGo] at hx
    by_cases hs : r.1 ∈ seen
    · rw [if_pos hs] at hx
      exact List.mem_cons_of_mem r (ih seen x hx)
    · rw [if_neg hs] at hx
      rcases List.mem_cons.mp hx with h | h
      · exact h ▸ List.mem_cons_self r rest
      · exact List.mem_cons_of_mem r (ih (r.1 :: seen) x h)

/-- Every date of the input list survives deduplication (or was already
seen). -/
theorem dropDupDatesGo_covers :
    ∀ (l : List (Nat × Rat)) (seen : List Nat) (r : Nat × Rat), r ∈ l →
      r.1 ∈ seen ∨ ∃ q ∈ dropDupDatesGo seen l, q.1 = r.1 := by
  intro l
  induction l with
  | nil => intro seen r hr; cases hr
  | cons x xs ih =>
    intro seen r hr
    simp only [dropDupDatesGo]
    by_cases hs : x.1 ∈ seen
    · rw [if_pos hs]
      rcases List.mem_cons.mp hr with h | h
      · exact Or.inl (h ▸ hs)
      · exact ih seen r h
    · rw [if_neg hs]
      rcases List.mem_cons.mp hr with h | h
      · exact Or.inr ⟨x, List.mem_cons_self x _, by rw [h]⟩
      · rcases ih (x.1 :: seen) r h with hseen | ⟨q, hq, hq1⟩
        · rcases List.mem_cons.mp hseen with h1 | h1
          · exact Or.inr ⟨x, List.mem_cons_self x _, h1.symm⟩
          · exact Or.inl h1
        · exact Or.inr ⟨q, List.mem_cons_of_mem x hq, hq1⟩

/-- After deduplication the dates are pairwise distinct (and avoid `seen`). -/
theorem dropDupDatesGo_dates_nodup :
    ∀ (l : List (Nat × Rat)) (seen : List Nat),
      ((dropDupDatesGo seen l).map Prod.fst).Nodup ∧
      ∀ x ∈ dropDupDatesGo seen l, x.1 ∉ seen := by
  intro l
  induction l with
  | nil => intro seen; exact ⟨List.nodup_nil, by intro x hx; cases hx⟩
  | cons r rest ih =>
    intro seen
    simp only [dropDupDatesGo]
    by_cases hs : r.1 ∈ seen
    · rw [if_pos hs]
      exact ih seen
    · rw [if_neg hs]
      obtain ⟨hnd, havoid⟩ := ih (r.1 :: seen)
      refine ⟨?_, ?_⟩
      · rw [List.map_cons, List.nodup_cons]
        refine ⟨?_, hnd⟩
        intro hmem
        rcases List.mem_map.mp hmem with ⟨y, hy, hy1⟩
        exact havoid y hy (hy1 ▸ List.mem_cons_self r.1 seen)
      · intro x hx
        rcases List.mem_cons.mp hx with h | h
        · exact h ▸ hs
        · exact fun hc => havoid x h (List.mem_cons_of_mem r.1 hc)

/-- Membership through date-insertion. -/
theorem mem_insertByDate (r x : Nat × Rat) :
    ∀ l, x ∈ insertByDate r l ↔ x = r ∨ x ∈ l := by
  intro l
  induction l with
  | nil => simp [insertByDate]
  | cons s rest ih =>
    simp only [insertByDate]
    by_cases h : r.1 ≤ s.1
    · rw [if_pos h]
      simp [List.mem_cons]
    · rw [if_neg h]
      simp only [List.mem_cons, ih]
      tauto

/-- Insertion preserves sortedness by date. -/
theorem pairwise_insertByDate (r : Nat × Rat) :
    ∀ l, l.Pairwise (fun a b : Nat × Rat => a.1 ≤ b.1) →
      (insertByDate r l).Pairwise (fun a b : Nat × Rat => a.1 ≤ b.1) := by
  intro l
  induction l with
  | nil => intro _; simp [insertByDate]
  | cons s rest ih =>
    intro hp
    obtain ⟨hhead, htail⟩ := List.pairwise_cons.mp hp
    simp only [insertByDate]
    by_cases h : r.1 ≤ s.1
    · rw [if_pos h]
      refine List.pairwise_cons.mpr ⟨?_, hp⟩
      intro b hb
      rcases List.mem_cons.mp hb with h1 | h1
      · exact h1 ▸ h
      · exact le_trans h (hhead b h1)
    · rw [if_neg h]
      refine List.pairwise_cons.mpr ⟨?_, ih htail⟩
      intro b hb
      rcases (mem_insertByDate r b rest).mp hb with h1 | h1
      · exact h1 ▸ le_of_not_le h
      · exact hhead b h1

/-- Membership through sorting. -/
theorem mem_sortByDate (x : Nat × Rat) : ∀ l, x ∈ sortByDate l ↔ x ∈ l := by
  intro l
  induction l with
  | nil => simp [sortByDate]
  | cons r rest ih =>
    simp only [sortByDate, List.foldr_cons]
    rw [show List.foldr insertByDate [] rest = sortByDate rest from rfl]
    rw [mem_insertByDate, ih, List.mem_cons]

/-- The sort output is sorted ascending by date. -/
theorem pairwise_sortByDate :
    ∀ l, (sortByDate l).Pairwise (fun a b : Nat × Rat => a.1 ≤ b.1) := by
  intro l
  induction l with
  | nil => exact List.Pairwise.nil
  | cons r rest ih => exact pairwise_insertByDate r (sortByDate rest) ih

/-- Insertion adds exactly one element. -/
theorem length_insertByDate (r : Nat × Rat) :
    ∀ l, (insertByDate r l).length = l.length + 1 := by
  intro l
  induction l with
  | nil => rfl
  | cons s rest ih =>
    simp only [insertByDate]
    by_cases h : r.1 ≤ s.1
    · rw [if_pos h]
      rfl
    · rw [if_neg h]
      simp [ih]

/-- Sorting preserves length. -/
theorem length_sortByDate : ∀ l : List (Nat × Rat),
    (sortByDate l).length = l.length := by
  intro l
  induction l with
  | nil => rfl
  | cons r rest ih =>
    simp only [sortByDate, List.foldr_cons]
    rw [show List.foldr insertByDate [] rest = sortByDate rest from rfl,
      length_insertByDate, ih, List.length_cons]

/-- In a list sorted ascending by date, the last element's date is maximal. -/
theorem getLast_is_max :
    ∀ l : List (Nat × Rat), l.Pairwise (fun a b : Nat × Rat => a.1 ≤ b.1) →
      ∀ m, l.getLast? = some m → ∀ x ∈ l, x.1 ≤ m.1 := by
  intro l
  induction l with
  | nil => intro _ m hm; cases hm
  | cons a t ih =>
    intro hp m hm x hx
    cases t with
    | nil =>
      simp only [List.getLast?_singleton, Option.some.injEq] at hm
      rcases List.mem_singleton.mp hx with h
      rw [h, hm]
    | cons b u =>
      rw [List.getLast?_cons_cons] at hm
      rcases List.mem_cons.mp hx with hxa | hxt
      · have hmem : m ∈ b :: u := List.mem_of_getLast?_eq_some hm
        exact hxa ▸ (List.pairwise_cons.mp hp).1 m hmem
      · exact ih (List.pairwise_cons.mp hp).2 m hm x hxt

/-- Claim C5: on a non-empty set of in-window scraped rows, the adapter
keeps at most one row per date (distinct dates after deduplication) and
returns the `(value, date)` pair of a scraped row whose date is the
maximum. -/
theorem spec_C5_dedup_and_max (today : Nat) (table : List (List String))
    (hne : collectRows today table ≠ []) :
    ((dropDupDates (collectRows today table)).map Prod.fst).Nodup ∧
    ∃ v : Rat, ∃ d : Nat,
      fetch_inpzu_nav today table = some (v, d) ∧
      (d, v) ∈ collectRows today table ∧
      ∀ r ∈ collectRows today table, r.1 ≤ d := by
  have hNodup := (dropDupDatesGo_dates_nodup (collectRows today table) []).1
  refine ⟨hNodup, ?_⟩
  have hddne : dropDupDates (collectRows today table) ≠ [] := by
    cases hrows : collectRows today table with
    | nil => exact absurd hrows hne
    | cons r rest =>
      simp [dropDupDates, dropDupDatesGo]
  have hdfne : sortByDate (dropDupDates (collectRows today table)) ≠ [] := by
    intro hcon
    apply hddne
    have := length_sortByDate (dropDupDates (collectRows today table))
    rw [hcon] at this
    exact List.length_eq_zero.mp this.symm
  obtain ⟨m, hm⟩ := Option.isSome_iff_exists.mp (List.getLast?_isSome.mpr hdfne)
  refine ⟨m.2, m.1, ?_, ?_, ?_⟩
  · simp only [fetch_inpzu_nav]
    rw [if_neg (by simpa using hne)]
    rw [hm]
    rfl
  · have hmem : m ∈ sortByDate (dropDupDates (collectRows today table)) :=
      List.mem_of_getLast?_eq_some hm
    have := mem_of_mem_dropDupDatesGo (collectRows today table) [] m
      ((mem_sortByDate m _).mp hmem)
    simpa using this
  · intro r hr
    rcases dropDupDatesGo_covers (collectRows today table) [] r hr with h | ⟨q, hq, hq1⟩
    · cases h
    · have hqdf : q ∈ sortByDate (dropDupDates (collectRows today table)) :=
        (mem_sortByDate q _).mpr hq
      have := getLast_is_max _ (pairwise_sortByDate _) m hm q hqdf
      rw [hq1] at this
      exact this

/-- Witness for C5: a concrete table with a duplicate date and an older
date; the adapter returns the latest date's value. -/
theorem spec_C5_witness :
    ((dropDupDates (collectRows (daysFromCivil 2024 3 20)
        [["18.03.2024", "93 500,00"], ["17.03.2024", "93 000,00"],
         ["18.03.2024", "92 000,00"]])).map Prod.fst).Nodup ∧
    ∃ v : Rat, ∃ d : Nat,
      fetch_inpzu_nav (daysFromCivil 2024 3 20)
          [["18.03.2024", "93 500,00"], ["17.03.2024", "93 000,00"],
           ["18.03.2024", "92 000,00"]] = some (v, d) ∧
      (d, v) ∈ collectRows (daysFromCivil 2024 3 20)
          [["18.03.2024", "93 500,00"], ["17.03.2024", "93 000,00"],
           ["18.03.2024", "92 000,00"]] ∧
      ∀ r ∈ collectRows (daysFromCivil 2024 3 20)
          [["18.03.2024", "93 500,00"], ["17.03.2024", "93 000,00"],
           ["18.03.2024", "92 000,00"]], r.1 ≤ d :=
  spec_C5_dedup_and_max _ _ (by decide)

/-- Claim C6: a scraped row contributes only if its parsed date lies in the
trailing 10-day window `today - 10 ≤ d ≤ today`; concretely, with today =
2024-03-20 an otherwise well-formed row dated 2024-03-01 is dropped. -/
theorem spec_C6_window :
    (∀ (today : Nat) (cells : List String) (d : Nat) (v : Rat),
        processRow today cells = some (d, v) → today - 10 ≤ d ∧ d ≤ today) ∧
    processRow (daysFromCivil 2024 3 20) ["01.03.2024", "93 500,00"] = none ∧
    parseDate "01.03.2024".toList = some (daysFromCivil 2024 3 1) ∧
    pyFloat (cleanCell "93 500,00".toList) = some 93500 ∧
    daysFromCivil 2024 3 1 < daysFromCivil 2024 3 20 - 10 := by
  refine ⟨?_, by decide, by decide, by decide, by decide⟩
  intro today cells d v h
  simp only [processRow] at h
  split at h
  · cases h
  · split at h
    · split at h
      · split at h
        · rename_i hcond
          rw [Option.some_inj, Prod.mk.injEq] at h
          exact h.1 ▸ hcond
        · cases h
      · cases h
    · cases h

/-- Witness for C6: a contributing concrete row, whose date indeed lies in
the window. -/
theorem spec_C6_witness :
    daysFromCivil 2024 3 20 - 10 ≤ daysFromCivil 2024 3 18 ∧
    daysFromCivil 2024 3 18 ≤ daysFromCivil 2024 3 20 :=
  spec_C6_window.1 (daysFromCivil 2024 3 20) ["18.03.2024", "93 500,00"]
    (daysFromCivil 2024 3 18) 93500 (by decide)

/-- Claim C7: the change text `"-3,078.00 / -2.63%"` parses to
`change_abs = -3078.00` and `change_pct = -2.63`, and any split with a
number of parts other than exactly two yields both fields absent (no
exception escapes — the parser is a total function). -/
theorem spec_C7_change_examples :
    parseChangeField "-3,078.00 / -2.63%" = (some (-3078), some (-263 / 100)) ∧
    ∀ txt : String, (txt.toList.splitOn '/').length ≠ 2 →
      parseChangeField txt = (none, none) := by
  constructor
  · have h : parseChangeField "-3,078.00 / -2.63%" =
        (some (mkRat (-3078) 1), some (mkRat (-263) 100)) := by decide
    rw [h, Rat.mkRat_eq_divInt, Rat.mkRat_eq_divInt, Rat.divInt_eq_div,
      Rat.divInt_eq_div]
    norm_num
  · intro txt hlen
    simp only [parseChangeField]
    rw [if_neg (by simpa using hlen)]

/-- Witness for C7: a one-part change text yields both fields absent. -/
theorem spec_C7_witness : parseChangeField "-2.63%" = (none, none) :=
  spec_C7_change_examples.2 "-2.63%" (by decide)

/-- Counterexample to C8 as stated: the change text splits into exactly
two parts, the first part converts successfully on its own, yet a parse
failure of the second part degrades BOTH fields to absent — the
successfully converted first value does not survive. -/
theorem spec_C8_counterexample :
    parseChangeField "-3,078.00 / abc" = (none, none) ∧
    ("-3,078.00 / abc".toList.splitOn '/').map pyStrip =
      ["-3,078.00".toList, "abc".toList] ∧
    pyFloat (pyReplaceS " " "" (pyReplaceS "," "" "-3,078.00".toList)) =
      some (-3078) ∧
    pyFloat (pyReplaceS " " ""
      (pyReplaceS "," "" (pyReplaceS "%" "" "abc".toList))) = none := by
  refine ⟨by decide, by decide, ?_, by decide⟩
  have h : pyFloat (pyReplaceS " " "" (pyReplaceS "," "" "-3,078.00".toList)) =
      some (mkRat (-3078) 1) := by decide
  rw [h, Rat.mkRat_eq_divInt, Rat.divInt_eq_div]
  norm_num

/-- Claim C8 (amended): when the change field splits into exactly two
parts, a conversion failure of either part degrades BOTH change values to
absent (the successfully parsed one is discarded too) without aborting the
run, and when both parts convert, both values are present. -/
theorem spec_C8_amended (txt : String) (p1 p2 : List Char)
    (hparts : (txt.toList.splitOn '/').map pyStrip = [p1, p2]) :
    ((pyFloat (pyReplaceS " " "" (pyReplaceS "," "" p1)) = none ∨
      pyFloat (pyReplaceS " " ""
        (pyReplaceS "," "" (pyReplaceS "%" "" p2))) = none) →
      parseChangeField txt = (none, none)) ∧
    (∀ a p : Rat, pyFloat (pyReplaceS " " "" (pyReplaceS "," "" p1)) = some a →
      pyFloat (pyReplaceS " " ""
        (pyReplaceS "," "" (pyReplaceS "%" "" p2))) = some p →
      parseChangeField txt = (some a, some p)) := by
  constructor
  · intro hfail
    simp only [parseChangeField, hparts]
    rcases hfail with hf | hf
    · rcases hpy : pyFloat (pyReplaceS " " ""
          (pyReplaceS "," "" (pyReplaceS "%" "" p2))) with _ | p <;>
        simp [hf, hpy, List.getD]
    · rcases hpy : pyFloat (pyReplaceS " " "" (pyReplaceS "," "" p1)) with _ | a <;>
        simp [hf, hpy, List.getD]
  · intro a p ha hp
    simp only [parseChangeField, hparts]
    simp [ha, hp, List.getD]

/-- Witness for C8 (amended): a failing second part nulls both fields. -/
theorem spec_C8_witness : parseChangeField "12.34 / abc" = (none, none) :=
  (spec_C8_amended "12.34 / abc" "12.34".toList "abc".toList (by decide)).1
    (Or.inr (by decide))

/-- The paired row-scan fold splits into two independent folds. -/
theorem scanCells_foldl_pair :
    ∀ (cols : List (List Char)) (a b : Option (List Char)),
      cols.foldl
        (fun acc c =>
          let dstr := if isDateShaped c then some c else acc.1
          let cleaned := cleanCell c
          let vstr := if isNumShaped cleaned then some cleaned else acc.2
          (dstr, vstr)) (a, b) =
      (cols.foldl (fun x c => if isDateShaped c then some c else x) a,
       cols.foldl
         (fun x c => if isNumShaped (cleanCell c) then some (cleanCell c) else x)
         b) := by
  intro cols
  induction cols with
  | nil => intro a b; rfl
  | cons c cs ih =>
    intro a b
    simp only [List.foldl_cons]
    exact ih _ _

/-- A fold that stores `f c` of the last match equals mapping `f` over the
fold that stores the matching element itself. -/
theorem foldl_lastMatching_map (p : List Char → Bool) (f : List Char → List Char) :
    ∀ (cols : List (List Char)) (a : Option (List Char)),
      cols.foldl (fun x c => if p c then some (f c) else x) (a.map f) =
        (cols.foldl (fun x c => if p c then some c else x) a).map f := by
  intro cols
  induction cols with
  | nil => intro a; rfl
  | cons c cs ih =>
    intro a
    simp only [List.foldl_cons]
    by_cases h : p c
    · rw [if_pos h, if_pos h, show some (f c) = (some c).map f from rfl]
      exact ih (some c)
    · rw [if_neg h, if_neg h]
      exact ih a

/-- The row scan selects, for each of its two tokens, the last cell of the
row matching the respective shape test (the value token being stored in
cleaned form). -/
theorem scanCells_eq_lastMatching (cols : List (List Char)) :
    scanCells cols =
      (lastMatching isDateShaped cols,
       (lastMatching (fun c => isNumShaped (cleanCell c)) cols).map cleanCell) := by
  rw [scanCells, scanCells_foldl_pair, lastMatching, lastMatching]
  have h := foldl_lastMatching_map (fun c => isNumShaped (cleanCell c))
    cleanCell cols none
  rw [show (none : Option (List Char)).map cleanCell = none from rfl] at h
  rw [h]

/-- Counterexample to C10 as stated: in the row
`["93 500,00", "18.03.2024"]` (date cell after the price cell) both the
date token and the numeric token resolve to the date cell — the date cell
passes the numeric-shape test — but the numeric conversion of
`"18.03.2024"` fails (two dots), so the adapter returns no NAV at all for
this table: the date string is never returned as the NAV value. -/
theorem spec_C10_counterexample :
    isDateShaped "18.03.2024".toList = true ∧
    isNumShaped (cleanCell "18.03.2024".toList) = true ∧
    scanCells ["93 500,00".toList, "18.03.2024".toList] =
      (some "18.03.2024".toList, some (cleanCell "18.03.2024".toList)) ∧
    pyFloat (cleanCell "18.03.2024".toList) = none ∧
    fetch_inpzu_nav (daysFromCivil 2024 3 18) [["93 500,00", "18.03.2024"]] =
      none := by
  exact ⟨by decide, by decide, by decide, by decide, by decide⟩

/-- Claim C10 (amended): the two tokens are taken from the last cell
matching each shape test, and a date-shaped cell such as `"18.03.2024"`
also satisfies the numeric-shape test; but a row whose numeric token fails
the float conversion — as the date string does — is silently dropped
rather than contributing the date as NAV value. -/
theorem spec_C10_amended :
    (∀ cols : List (List Char), scanCells cols =
      (lastMatching isDateShaped cols,
       (lastMatching (fun c => isNumShaped (cleanCell c)) cols).map cleanCell)) ∧
    isDateShaped "18.03.2024".toList = true ∧
    isNumShaped (cleanCell "18.03.2024".toList) = true ∧
    (∀ (today : Nat) (cells : List String) (vs : List Char),
      (scanCells (cells.map (fun td => pyReplaceS "\xA0" " " td.toList))).2 =
        some vs →
      pyFloat vs = none → processRow today cells = none) := by
  refine ⟨scanCells_eq_lastMatching, by decide, by decide, ?_⟩
  intro today cells vs hvs hfail
  simp only [processRow]
  split
  · rfl
  · rcases hsc : scanCells (cells.map fun td => pyReplaceS "\xA0" " " td.toList)
      with ⟨od, ov⟩
    rw [hsc] at hvs
    simp only at hvs
    rw [hsc]
    subst hvs
    cases od with
    | none => rfl
    | some ds =>
      show (match parseDate ds, pyFloat vs with
        | some d, some v =>
          if today - 10 ≤ d ∧ d ≤ today then some (d, v) else none
        | _, _ => none) = none
      rw [hfail]
      cases parseDate ds <;> rfl

/-- Witness for C10 (amended): the claim's own example row is dropped. -/
theorem spec_C10_witness :
    processRow (daysFromCivil 2024 3 18) ["93 500,00", "18.03.2024"] = none :=
  spec_C10_amended.2.2.2 (daysFromCivil 2024 3 18) ["93 500,00", "18.03.2024"]
    (cleanCell "18.03.2024".toList) (by decide) (by decide)
